import Mathlib

/-!
Shallow embedding of the churn preprocessing pipeline
(`src/prediction_model/pipeline/preprocessing.py`).

Records are Python dicts mapping column names to values; values are
strings, floats, ints or `None`.  Python floats are modelled as exact
rationals extended with `nan`/`inf`/`-inf` (no claim depends on binary
rounding).  Fallible Python code is modelled in the `Except PyError`
monad; a Beam `ParDo` stage is a function from a record to a list of
output records (zero or one here), with uncaught exceptions aborting
the whole run.
-/

/-- Python float values: exact rationals extended with the three
non-finite values.  Rounding plays no role in any property considered
here, so `finite` carries a rational. -/
inductive PyFloat where
  | finite (q : ℚ)
  | nan
  | inf
  | ninf
deriving DecidableEq

/-- Values stored in a record: Python strings, floats, ints, or `None`. -/
inductive Value where
  | vstr (s : String)
  | vfloat (f : PyFloat)
  | vint (n : ℤ)
  | vnone
deriving DecidableEq

/-- Python exceptions that the modelled code can raise. -/
inductive PyError where
  | keyError (key : String)
  | valueError (msg : String)
  | attributeError (msg : String)
  | typeError (msg : String)
deriving DecidableEq

/-- Equality of modelled Python computations is decidable. -/
instance {ε α : Type} [DecidableEq ε] [DecidableEq α] : DecidableEq (Except ε α) := fun x y =>
  match x, y with
  | .ok a, .ok b =>
      if h : a = b then isTrue (by rw [h]) else isFalse (by intro hh; cases hh; exact h rfl)
  | .error a, .error b =>
      if h : a = b then isTrue (by rw [h]) else isFalse (by intro hh; cases hh; exact h rfl)
  | .ok _, .error _ => isFalse (by intro hh; cases hh)
  | .error _, .ok _ => isFalse (by intro hh; cases hh)

/-- A record is a Python dict: an association list with unique keys,
keyed by column name. -/
abbrev Record := List (String × Value)

/-- Python `d[k]` read access: the stored value, if the key is present. -/
def dictGet : Record → String → Option Value
  | [], _ => Option.none
  | (k, v) :: rest, key => if k = key then some v else dictGet rest key

/-- Python `d.get(k, default)`. -/
def dictGetD (r : Record) (key : String) (default : Value) : Value :=
  (dictGet r key).getD default

/-- Python `d[k] = v`: replace in place when the key exists, append
otherwise. -/
def dictSet : Record → String → Value → Record
  | [], key, v => [(key, v)]
  | (k, w) :: rest, key, v =>
      if k = key then (k, v) :: rest else (k, w) :: dictSet rest key v

/-- Python `d.pop(k, None)`: remove the key when present. -/
def dictPop (r : Record) (key : String) : Record :=
  r.filter (fun p => p.1 ≠ key)

/-- Python `d.update(other)`: assign every pair of `other` in order. -/
def dictUpdate (r : Record) (other : List (String × Value)) : Record :=
  other.foldl (fun acc p => dictSet acc p.1 p.2) r

/-! Models of the Python string builtins used by the source.  They are
written by structural recursion over `List Char` so that every concrete
evaluation reduces in the kernel. -/

/-- Whitespace characters stripped by Python `str.strip()`. -/
def isPySpace (c : Char) : Bool :=
  c = ' ' ∨ c = '\t' ∨ c = '\n' ∨ c = '\r' ∨ c = '\x0b' ∨ c = '\x0c'

/-- Python `str.strip()`. -/
def pyStrip (s : String) : String :=
  String.mk (((s.data.dropWhile isPySpace).reverse.dropWhile isPySpace).reverse)

/-- Split a character list at every occurrence of `sep`; always returns
one more part than there are separators, as Python `str.split(sep)` does. -/
def splitOnChar (sep : Char) : List Char → List (List Char)
  | [] => [[]]
  | c :: rest =>
      let r := splitOnChar sep rest
      if c = sep then [] :: r
      else
        match r with
        | [] => [[c]]
        | p :: ps => (c :: p) :: ps

/-- Python `s.split(',')`. -/
def pySplitComma (s : String) : List String :=
  (splitOnChar ',' s.data).map String.mk

/-- Replace every occurrence of the character `old` by the string `new`. -/
def replaceChar (old : Char) (new : List Char) : List Char → List Char
  | [] => []
  | c :: rest =>
      if c = old then new ++ replaceChar old new rest
      else c :: replaceChar old new rest

/-- Python `s.replace(old, new)` for a one-character `old` (the source
only ever replaces the space character). -/
def pyReplaceChar (s : String) (old : Char) (new : String) : String :=
  String.mk (replaceChar old new.data s.data)

/-- Python `str.lower()` (ASCII case folding suffices here). -/
def pyLower (s : String) : String :=
  String.mk (s.data.map Char.toLower)

/-- Python `list.index(a)` for string lists, defined on lists that
contain `a` (the source guards the call with a membership test). -/
def listIndex (a : String) : List String → Nat
  | [] => 0
  | b :: rest => if b = a then 0 else listIndex a rest + 1

/-! Model of the Python builtin `float(string)` grammar: optional
surrounding whitespace, optional sign, then either `nan` / `inf` /
`infinity` (case-insensitively) or a decimal literal with optional
fractional part and optional exponent.  Digit-group underscores are not
modelled; no input considered here contains them. -/

/-- Numeric value of a digit string. -/
def natOfDigits (cs : List Char) : ℕ :=
  cs.foldl (fun a c => a * 10 + (c.toNat - 48)) 0

/-- Parse the optional exponent suffix of a float literal, returning
(negated?, magnitude); fails on any other trailing text. -/
def parseExponent : List Char → Option (Bool × ℕ)
  | [] => some (false, 0)
  | c :: rest =>
      if c = 'e' ∨ c = 'E' then
        match rest with
        | '+' :: ds =>
            if !ds.isEmpty && ds.all (·.isDigit) then some (false, natOfDigits ds)
            else Option.none
        | '-' :: ds =>
            if !ds.isEmpty && ds.all (·.isDigit) then some (true, natOfDigits ds)
            else Option.none
        | ds =>
            if !ds.isEmpty && ds.all (·.isDigit) then some (false, natOfDigits ds)
            else Option.none
      else Option.none

/-- Exact rational value of a decimal literal: sign, digit-string value
`m`, number of fractional digits `fracLen`, parsed exponent.  The value
is `±m / 10 ^ fracLen · 10 ^ ±k`, assembled with `mkRat` over natural
powers of ten so that concrete values reduce in the kernel. -/
def decValue (neg : Bool) (m : ℕ) (fracLen : ℕ) : Bool × ℕ → ℚ
  | (true, k) => mkRat (if neg then -(m : ℤ) else (m : ℤ)) (10 ^ (fracLen + k))
  | (false, k) =>
      mkRat ((if neg then -(m : ℤ) else (m : ℤ)) * ((10 ^ k : ℕ) : ℤ)) (10 ^ fracLen)

/-- Parse a (sign-free) decimal float literal (digits, optional point,
optional exponent); at least one digit is required.  The sign parsed
earlier is passed in so the exact value can be built in one step. -/
def parseDecimal (neg : Bool) (cs : List Char) : Option ℚ :=
  let ip := cs.takeWhile (·.isDigit)
  let rest := cs.dropWhile (·.isDigit)
  match rest with
  | '.' :: rest2 =>
      let fp := rest2.takeWhile (·.isDigit)
      let rest3 := rest2.dropWhile (·.isDigit)
      if ip.isEmpty && fp.isEmpty then Option.none
      else (parseExponent rest3).map (decValue neg (natOfDigits (ip ++ fp)) fp.length)
  | _ =>
      if ip.isEmpty then Option.none
      else (parseExponent rest).map (decValue neg (natOfDigits ip) 0)

/-- Sign-free part of the float grammar. -/
def pyFloatCore (cs : List Char) (neg : Bool) : Option PyFloat :=
  let low := String.mk (cs.map Char.toLower)
  if low = "nan" then some PyFloat.nan
  else if low = "inf" ∨ low = "infinity" then
    some (if neg then PyFloat.ninf else PyFloat.inf)
  else (parseDecimal neg cs).map PyFloat.finite

/-- Float grammar after whitespace stripping: optional sign then core. -/
def pyFloatOfChars : List Char → Option PyFloat
  | '+' :: rest => pyFloatCore rest false
  | '-' :: rest => pyFloatCore rest true
  | rest => pyFloatCore rest false

/-- Python `float(s)` for a string argument, `Option.none` meaning the
`ValueError` raise. -/
def pyFloatParse (s : String) : Option PyFloat :=
  pyFloatOfChars (pyStrip s).data

/-- Python `isinstance(v, float) and math.isnan(v)`. -/
def isFloatNan : Value → Bool
  | .vfloat .nan => true
  | _ => false

/-- Python `float(v)` on an arbitrary value. -/
def pyFloatOfValue : Value → Except PyError PyFloat
  | .vstr s =>
      match pyFloatParse s with
      | some f => .ok f
      | Option.none =>
          .error (.valueError ("could not convert string to float: \x27" ++ s ++ "\x27"))
  | .vfloat f => .ok f
  | .vint n => .ok (.finite (n : ℚ))
  | .vnone => .error (.typeError "float() argument must be a string or a real number, not \x27NoneType\x27")

/-- Python `v.replace(old, new)` on an arbitrary value: only strings
have the method, any other type raises `AttributeError`. -/
def strReplace (v : Value) (old : Char) (new : String) : Except PyError String :=
  match v with
  | .vstr s => .ok (pyReplaceChar s old new)
  | .vfloat _ => .error (.attributeError "\x27float\x27 object has no attribute \x27replace\x27")
  | .vint _ => .error (.attributeError "\x27int\x27 object has no attribute \x27replace\x27")
  | .vnone => .error (.attributeError "\x27NoneType\x27 object has no attribute \x27replace\x27")

/-- Python `v.lower()` on an arbitrary value: only strings have the
method. -/
def strLowerValue (v : Value) : Except PyError String :=
  match v with
  | .vstr s => .ok (pyLower s)
  | .vfloat _ => .error (.attributeError "\x27float\x27 object has no attribute \x27lower\x27")
  | .vint _ => .error (.attributeError "\x27int\x27 object has no attribute \x27lower\x27")
  | .vnone => .error (.attributeError "\x27NoneType\x27 object has no attribute \x27lower\x27")

/-- Python `pd.isna(v)` on a scalar: true exactly for `None` and float
`nan`; the result is a builtin `bool`. -/
def pdIsna (v : Value) : Bool :=
  v = Value.vnone ∨ isFloatNan v

/-- Python attribute access `b.any()` on a builtin `bool`: the method
does not exist (`pd.isna` on a scalar returns a plain `bool`, not a
numpy array), so this always raises `AttributeError`. -/
def boolAny (_ : Bool) : Except PyError Bool :=
  .error (.attributeError "\x27bool\x27 object has no attribute \x27any\x27")

/-- Rendering used by `str(v)` when serializing a record.  The exact
text of Python float repr is abbreviated; no property below inspects
serialized text. -/
def pyStr : Value → String
  | .vstr s => s
  | .vint n => toString n
  | .vnone => "None"
  | .vfloat .nan => "nan"
  | .vfloat .inf => "inf"
  | .vfloat .ninf => "-inf"
  | .vfloat (.finite q) =>
      if q.den = 1 then toString q.num ++ ".0" else toString q

/-! Configuration constants.  The `config` module itself is not part of
the sources, only its uses are; the values below are modelled from the
specification (fixed column/feature lists, a leading "customer id"
marker column, `TotalCharges` as the feature the charges imputer
modifies). -/

/-- Modelled from the spec: `config.FEATURES`, the canonical ordered
output feature list — the three contract indicator columns (named after
the category values) followed by the numeric and boolean features. -/
def FEATURES : List String :=
  ["One year", "Two year", "Month-to-month", "TotalCharges", "PhoneService", "tenure"]

/-- Modelled from the spec: `config.FEATURES_AFTER_CONTRACT`, the
allow-list applied by the feature filter before contract encoding. -/
def FEATURES_AFTER_CONTRACT : List String :=
  ["Contract", "TotalCharges", "PhoneService", "tenure"]

/-- Modelled from the spec: `config.LEADING_COLUMN`, the customer-id
marker column used to locate the data start offset in the header. -/
def LEADING_COLUMN : String := "customerID"

/-- Modelled from the spec: `config.FEATURE_TO_MODIFY`, the field the
charges imputer reads. -/
def FEATURE_TO_MODIFY : String := "TotalCharges"

/-- Modelled from the spec: `config.COLUMN_NAMES`, the canonical column
names aligned positionally from the leading column onward. -/
def COLUMN_NAMES : List String :=
  ["customerID", "Contract", "TotalCharges", "PhoneService", "tenure"]

/-- The valid contract domain used by `FilterInvalidContract`. -/
def validContracts : List String := ["One year", "Two year", "Month-to-month"]

/-! The source functions of `preprocessing.py`, stage by stage. -/

/-- Source `is_csv_empty`: the input file (as a list of lines) is empty
or has only blank lines after the header line. -/
def is_csv_empty (lines : List String) : Bool :=
  (lines.drop 1).all (fun l => pyStrip l = "")

/-- Source `filter_features`: the dict comprehension
`{key: element[key] for key in config.FEATURES_AFTER_CONTRACT}`;
the subscript access raises `KeyError` on an absent key. -/
def filter_features (element : Record) : Except PyError Record :=
  FEATURES_AFTER_CONTRACT.foldlM
    (fun acc key =>
      match dictGet element key with
      | some v => .ok (dictSet acc key v)
      | Option.none => .error (.keyError key))
    []

/-- Source `find_leading_column_index`: split the header on commas and
return the index of the leading column, raising `ValueError` when it is
absent. -/
def find_leading_column_index (header : String) : Except PyError ℕ :=
  let columns := pySplitComma header
  if LEADING_COLUMN ∈ columns then .ok (listIndex LEADING_COLUMN columns)
  else .error (.valueError ("\x27" ++ LEADING_COLUMN ++ "\x27 column not found in the header."))

/-- Source `convert_dict_to_string`: comma-join `str(element.get(col, ""))`
over the canonical feature list. -/
def convert_dict_to_string (element : Record) : String :=
  String.intercalate ","
    (FEATURES.map (fun col => pyStr (dictGetD element col (Value.vstr ""))))

/-- Source `'To Dict'` map: `dict(zip(config.COLUMN_NAMES,
x.split(',')[customer_id_index:]))`. -/
def toDict (customer_id_index : ℕ) (line : String) : Record :=
  (List.zip COLUMN_NAMES ((pySplitComma line).drop customer_id_index)).map
    (fun p => (p.1, Value.vstr p.2))

namespace FillTotalCharges

/-- Source `FillTotalCharges.process`, instantiated with the pipeline's
`default_value = 2279.0` (so `str(self.default_value)` is `"2279.0"`):
read the configured field with default `"2279.0"`; replace `None`, the
empty string, or a float NaN by `"2279.0"`; call `.replace(' ', "2279.0")`
on the result (an `AttributeError` when it is not a string); parse it as
a float, falling back to `2279.0` on `ValueError`; write the float back
under the literal key `"TotalCharges"`. -/
def process (element : Record) : Except PyError (List Record) := do
  let tc0 := dictGetD element FEATURE_TO_MODIFY (Value.vstr "2279.0")
  let tc1 :=
    if tc0 = Value.vnone ∨ tc0 = Value.vstr "" ∨ isFloatNan tc0 then Value.vstr "2279.0"
    else tc0
  let s ← strReplace tc1 ' ' "2279.0"
  let f :=
    match pyFloatParse s with
    | some f => f
    | Option.none => PyFloat.finite 2279
  .ok [dictSet element "TotalCharges" (Value.vfloat f)]

end FillTotalCharges

namespace FilterInvalidContract

/-- Source `FilterInvalidContract.process`: read `element.get('Contract')`
(`None` when absent) and yield the record only when the value is one of
the three valid contract strings; otherwise yield nothing (the invalid
counter is a no-op). -/
def process (element : Record) : Except PyError (List Record) :=
  let contract_value := dictGetD element "Contract" Value.vnone
  if contract_value ∈ validContracts.map Value.vstr then .ok [element]
  else .ok []

end FilterInvalidContract

namespace OHEContract

/-- The constructor's `contract_mapping` dict. -/
def contract_mapping (s : String) : Option (List (String × Value)) :=
  if s = "One year" then
    some [("One year", Value.vint 1), ("Two year", Value.vint 0), ("Month-to-month", Value.vint 0)]
  else if s = "Two year" then
    some [("One year", Value.vint 0), ("Two year", Value.vint 1), ("Month-to-month", Value.vint 0)]
  else if s = "Month-to-month" then
    some [("One year", Value.vint 0), ("Two year", Value.vint 0), ("Month-to-month", Value.vint 1)]
  else Option.none

/-- The all-zero default row of `contract_mapping.get`. -/
def allZero : List (String × Value) :=
  [("One year", Value.vint 0), ("Two year", Value.vint 0), ("Month-to-month", Value.vint 0)]

/-- Source `OHEContract.process`: `element.update(self.contract_mapping.get(
element['Contract'], all-zero))` followed by `element.pop('Contract', None)`;
the subscript read raises `KeyError` when the key is absent, and a
non-string value simply misses the mapping dict. -/
def process (element : Record) : Except PyError (List Record) := do
  let cv ←
    match dictGet element "Contract" with
    | some v => Except.ok v
    | Option.none => Except.error (.keyError "Contract")
  let upd :=
    match cv with
    | Value.vstr s => (contract_mapping s).getD allZero
    | _ => allZero
  .ok [dictPop (dictUpdate element upd) "Contract"]

end OHEContract

namespace HandleContract

/-- Source `HandleContract.process`: `pd.isna(element['Contract'])` on a
scalar returns a builtin `bool`, on which the code calls `.any()`; only
if that succeeded would a null raise the `ValueError`. -/
def process (element : Record) : Except PyError (List Record) := do
  let cv ←
    match dictGet element "Contract" with
    | some v => Except.ok v
    | Option.none => Except.error (.keyError "Contract")
  let b ← boolAny (pdIsna cv)
  if b then Except.error (.valueError "Null value found in \x27Contract\x27 feature")
  else .ok [element]

end HandleContract

namespace FillPhoneService

/-- Source `FillPhoneService.process`: when `element.get('PhoneService')`
is `None` or a float NaN, set the field to the string `"No"`. -/
def process (element : Record) : Except PyError (List Record) :=
  let phone_service_value := dictGetD element "PhoneService" Value.vnone
  if phone_service_value = Value.vnone ∨ isFloatNan phone_service_value then
    .ok [dictSet element "PhoneService" (Value.vstr "No")]
  else .ok [element]

end FillPhoneService

namespace FillTenureWithMean

/-- Source `FillTenureWithMean.process`, parametrized by the tenure mean
`μ` computed from the reference dataset at construction time: missing /
`None` / NaN becomes `float(μ)`; the empty string becomes `0.0`; any other
value goes through an unguarded `float()` conversion. -/
def process (μ : PyFloat) (element : Record) : Except PyError (List Record) :=
  let tenure_value := dictGetD element "tenure" Value.vnone
  if tenure_value = Value.vnone ∨ isFloatNan tenure_value then
    .ok [dictSet element "tenure" (Value.vfloat μ)]
  else if tenure_value = Value.vstr "" then
    .ok [dictSet element "tenure" (Value.vfloat (PyFloat.finite 0))]
  else do
    let f ← pyFloatOfValue tenure_value
    .ok [dictSet element "tenure" (Value.vfloat f)]

end FillTenureWithMean

namespace MapPhoneService

/-- Source `MapPhoneService.process`:
`element['PhoneService'] = 1 if element['PhoneService'].lower() == 'yes' else 0`. -/
def process (element : Record) : Except PyError (List Record) := do
  let v ←
    match dictGet element "PhoneService" with
    | some w => Except.ok w
    | Option.none => Except.error (.keyError "PhoneService")
  let low ← strLowerValue v
  .ok [dictSet element "PhoneService" (Value.vint (if low = "yes" then 1 else 0))]

end MapPhoneService

/-- A Beam `ParDo` over an in-memory collection: apply the per-record
function to each element, concatenating outputs; any uncaught exception
aborts the run. -/
def parDo (f : Record → Except PyError (List Record)) : List Record → Except PyError (List Record)
  | [] => .ok []
  | r :: rest => do
      let out ← f r
      let outs ← parDo f rest
      .ok (out ++ outs)

/-- The tail of the transform chain from the tenure stage on: fill
tenure, map PhoneService, serialize. -/
def chainFromTenure (μ : PyFloat) (records : List Record) : Except PyError (List String) := do
  let r6 ← parDo (FillTenureWithMean.process μ) records
  let r7 ← parDo MapPhoneService.process r6
  .ok (r7.map convert_dict_to_string)

/-- The transform chain from the contract validator on. -/
def chainFromValidator (μ : PyFloat) (records : List Record) : Except PyError (List String) := do
  let r2 ← parDo FilterInvalidContract.process records
  let r3 ← parDo OHEContract.process r2
  let r4 ← parDo FillTotalCharges.process r3
  let r5 ← parDo FillPhoneService.process r4
  chainFromTenure μ r5

/-- The full per-record transform chain of `run_pipeline`, after the
`'To Dict'` step. -/
def transformChain (μ : PyFloat) (records : List Record) : Except PyError (List String) := do
  let r1 ← records.mapM filter_features
  chainFromValidator μ r1

/-- Source `run_pipeline` over an input file given as a list of lines,
parametrized by the reference-dataset tenure mean `μ`.  The result is
`(returned boolean, written output file lines)`; `Except.error` models
an uncaught exception (no boolean is returned, no output is written).
The empty-input check short-circuits with `False` before the header is
read; otherwise the leading-column offset is located in the header
(possibly raising), every data line is turned into a record, the chain
runs, and the synthesized canonical header is prepended to the output. -/
def run_pipeline (μ : PyFloat) (inputLines : List String) :
    Except PyError (Bool × Option (List String)) :=
  if is_csv_empty inputLines then .ok (false, Option.none)
  else do
    let header := pyStrip (inputLines.headD "")
    let customer_id_index ← find_leading_column_index header
    let records := (inputLines.drop 1).map (toDict customer_id_index)
    let processed ← transformChain μ records
    let header_str := String.intercalate "," FEATURES
    .ok (true, some (header_str :: processed))

/-- Value-type guard for the amended charges-imputer property: the
stored `TotalCharges` value, when present, is a string, `None`, or a
float NaN (exactly the shapes the stage handles without raising). -/
def tcStringlike (r : Record) : Bool :=
  match dictGet r "TotalCharges" with
  | some (Value.vstr _) => true
  | some Value.vnone => true
  | some (Value.vfloat PyFloat.nan) => true
  | some _ => false
  | Option.none => true

/-! Basic lemmas about the dict operations. -/

theorem dictGet_set_self (r : Record) (k : String) (v : Value) :
    dictGet (dictSet r k v) k = some v := by
  induction r with
  | nil => simp [dictSet, dictGet]
  | cons p rest ih =>
      obtain ⟨a, w⟩ := p
      by_cases h : a = k
      · simp [dictSet, dictGet, h]
      · simp [dictSet, dictGet, h, ih]

theorem dictGet_set_ne (r : Record) (k k' : String) (v : Value) (h : k' ≠ k) :
    dictGet (dictSet r k v) k' = dictGet r k' := by
  induction r with
  | nil => simp [dictSet, dictGet, Ne.symm h]
  | cons p rest ih =>
      obtain ⟨a, w⟩ := p
      by_cases ha : a = k
      · subst ha
        simp [dictSet, dictGet, Ne.symm h]
      · simp [dictSet, dictGet, ha, ih]

theorem dictGet_pop_self (r : Record) (k : String) :
    dictGet (dictPop r k) k = Option.none := by
  induction r with
  | nil => rfl
  | cons p rest ih =>
      obtain ⟨a, w⟩ := p
      by_cases ha : a = k
      · subst ha
        simpa [dictPop, List.filter_cons] using ih
      · simpa [dictPop, List.filter_cons, dictGet, ha] using ih

theorem dictGet_pop_ne (r : Record) (k k' : String) (h : k' ≠ k) :
    dictGet (dictPop r k) k' = dictGet r k' := by
  induction r with
  | nil => rfl
  | cons p rest ih =>
      obtain ⟨a, w⟩ := p
      by_cases ha : a = k
      · subst ha
        have ih2 : dictGet (rest.filter (fun p => !decide (p.1 = a))) k' = dictGet rest k' := by
          simpa [dictPop] using ih
        simp [dictPop, List.filter_cons, dictGet, Ne.symm h, ih2]
      · by_cases hak : a = k'
        · subst hak
          simpa [dictPop, List.filter_cons, dictGet, ha] using ih
        · simpa [dictPop, List.filter_cons, dictGet, ha, hak] using ih

theorem except_bind_ok {ε α β : Type} (a : α) (f : α → Except ε β) :
    (Except.ok a : Except ε α) >>= f = f a := rfl

theorem except_bind_error {ε α β : Type} (e : ε) (f : α → Except ε β) :
    (Except.error e : Except ε α) >>= f = Except.error e := rfl

theorem parDo_cons (f : Record → Except PyError (List Record)) (r : Record)
    (rest : List Record) :
    parDo f (r :: rest) =
      Except.bind (f r) (fun out =>
        Except.bind (parDo f rest) (fun outs => .ok (out ++ outs))) := rfl

theorem isFloatNan_eq_true (v : Value) :
    isFloatNan v = true ↔ v = Value.vfloat PyFloat.nan := by
  cases v with
  | vfloat f => cases f <;> simp [isFloatNan]
  | vstr s => simp [isFloatNan]
  | vint n => simp [isFloatNan]
  | vnone => simp [isFloatNan]

/-- C1: for every record whose Contract value is one of "One year",
"Two year", "Month-to-month", the contract encoder emits exactly one
record in which the indicator field named after that value is 1, the
other two indicator fields are 0, and the key Contract is absent. -/
theorem ohe_contract_one_hot (r : Record) (c : String)
    (hc : c ∈ validContracts) (hr : dictGet r "Contract" = some (Value.vstr c)) :
    ∃ r2, OHEContract.process r = .ok [r2] ∧
      dictGet r2 "Contract" = Option.none ∧
      dictGet r2 c = some (Value.vint 1) ∧
      ∀ c2 ∈ validContracts, c2 ≠ c → dictGet r2 c2 = some (Value.vint 0) := by
  have hmem : c = "One year" ∨ c = "Two year" ∨ c = "Month-to-month" := by
    simpa [validContracts] using hc
  have hp : OHEContract.process r =
      .ok [dictPop
        (dictUpdate r ((OHEContract.contract_mapping c).getD OHEContract.allZero))
        "Contract"] := by
    unfold OHEContract.process
    rw [hr]
    rfl
  rcases hmem with h | h | h <;> subst h <;>
    refine ⟨_, hp, ?_, ?_, ?_⟩ <;>
    simp [OHEContract.contract_mapping, dictUpdate, dictGet_pop_self, dictGet_pop_ne,
      dictGet_set_self, dictGet_set_ne, validContracts]

/-- C1 witness: a concrete month-to-month record. -/
theorem ohe_contract_one_hot_witness :
    ∃ r2, OHEContract.process [("Contract", Value.vstr "Month-to-month")] = .ok [r2] ∧
      dictGet r2 "Contract" = Option.none ∧
      dictGet r2 "Month-to-month" = some (Value.vint 1) ∧
      ∀ c2 ∈ validContracts, c2 ≠ "Month-to-month" → dictGet r2 c2 = some (Value.vint 0) :=
  ohe_contract_one_hot _ _ (by decide) rfl

/-- C2: for every record whose Contract value is not one of the three
valid categories (including an absent key and a null value), the
contract validator emits no output and raises no error, and the
transform chain from the validator onward produces the same output
stream with or without the record. -/
theorem filter_invalid_contract_drops (μ : PyFloat) (r : Record)
    (h : ∀ s, dictGet r "Contract" = some (Value.vstr s) → s ∉ validContracts) :
    FilterInvalidContract.process r = .ok [] ∧
    ∀ rest, chainFromValidator μ (r :: rest) = chainFromValidator μ rest := by
  have hv : FilterInvalidContract.process r = .ok [] := by
    unfold FilterInvalidContract.process
    rcases hg : dictGet r "Contract" with _ | v
    · simp [dictGetD, hg, validContracts]
    · rcases v with s | f | n | _
      · have hs := h s hg
        simp [validContracts] at hs
        simp [dictGetD, hg, validContracts, hs]
      · simp [dictGetD, hg, validContracts]
      · simp [dictGetD, hg, validContracts]
      · simp [dictGetD, hg, validContracts]
  refine ⟨hv, fun rest => ?_⟩
  have hpar : parDo FilterInvalidContract.process (r :: rest) =
      parDo FilterInvalidContract.process rest := by
    rw [parDo_cons, hv]
    rcases hr2 : parDo FilterInvalidContract.process rest with e | l <;>
      simp [Except.bind, hr2]
  unfold chainFromValidator
  rw [hpar]

/-- C2 witness: a record with an out-of-domain Contract value. -/
theorem filter_invalid_contract_drops_witness :
    FilterInvalidContract.process [("Contract", Value.vstr "Weekly")] = .ok [] ∧
    chainFromValidator (PyFloat.finite 32) [[("Contract", Value.vstr "Weekly")]] =
      chainFromValidator (PyFloat.finite 32) [] := by
  have h := filter_invalid_contract_drops (PyFloat.finite 32)
    [("Contract", Value.vstr "Weekly")]
    (fun s hs => by
      simp [dictGet] at hs
      subst hs
      decide)
  exact ⟨h.1, h.2 []⟩

/-- C3 counterexample: the claim promises "never raises" and "always a
finite float" for every record, but a present non-NaN float value makes
the stage raise `AttributeError` (the `.replace` call on a float), and
the string value "nan" parses to a float NaN, so the written value is
not finite. -/
theorem fill_total_charges_claim_false :
    FillTotalCharges.process [("TotalCharges", Value.vfloat (PyFloat.finite 5))] =
      .error (.attributeError "\x27float\x27 object has no attribute \x27replace\x27") ∧
    FillTotalCharges.process [("TotalCharges", Value.vstr "nan")] =
      .ok [[("TotalCharges", Value.vfloat PyFloat.nan)]] :=
  ⟨rfl, rfl⟩

/-- C3 (amended): for every record whose TotalCharges value, when
present, is a string, None, or a float NaN, the imputer never raises and
emits exactly one record with a float TotalCharges: absent, None, empty
string and NaN inputs yield 2279.0 exactly, and any other string has its
spaces replaced by "2279.0" and is then parsed, a parse failure
degrading to 2279.0 (so "1 234" yields 12279.0234 exactly). -/
theorem fill_total_charges_amended (r : Record) (h : tcStringlike r = true) :
    ∃ f, FillTotalCharges.process r = .ok [dictSet r "TotalCharges" (Value.vfloat f)] ∧
      ((dictGet r "TotalCharges" = Option.none ∨
        dictGet r "TotalCharges" = some Value.vnone ∨
        dictGet r "TotalCharges" = some (Value.vstr "") ∨
        dictGet r "TotalCharges" = some (Value.vfloat PyFloat.nan)) →
        f = PyFloat.finite 2279) ∧
      (∀ s2, dictGet r "TotalCharges" = some (Value.vstr s2) → s2 ≠ "" →
        f = (pyFloatParse (pyReplaceChar s2 ' ' "2279.0")).getD (PyFloat.finite 2279)) := by
  rcases hg : dictGet r "TotalCharges" with _ | v
  · have hd : dictGetD r FEATURE_TO_MODIFY (Value.vstr "2279.0") = Value.vstr "2279.0" := by
      simp [dictGetD, FEATURE_TO_MODIFY, hg]
    refine ⟨PyFloat.finite 2279, ?_, fun _ => rfl, fun s2 hs2 _ => ?_⟩
    · unfold FillTotalCharges.process
      rw [hd]
      rfl
    · cases hs2
  · rcases v with s | fl | n | _
    · by_cases hs0 : s = ""
      · subst hs0
        have hd : dictGetD r FEATURE_TO_MODIFY (Value.vstr "2279.0") = Value.vstr "" := by
          simp [dictGetD, FEATURE_TO_MODIFY, hg]
        refine ⟨PyFloat.finite 2279, ?_, fun _ => rfl, fun s2 hs2 hne => ?_⟩
        · unfold FillTotalCharges.process
          rw [hd]
          rfl
        · injection hs2 with h1
          injection h1 with h2
          exact absurd h2.symm hne
      · have hd : dictGetD r FEATURE_TO_MODIFY (Value.vstr "2279.0") = Value.vstr s := by
          simp [dictGetD, FEATURE_TO_MODIFY, hg]
        have hcond : ¬(Value.vstr s = Value.vnone ∨ Value.vstr s = Value.vstr "" ∨
            isFloatNan (Value.vstr s) = true) := by
          simp [hs0, isFloatNan]
        have hmatch : FillTotalCharges.process r =
            (match pyFloatParse (pyReplaceChar s ' ' "2279.0") with
             | some f0 => Except.ok [dictSet r "TotalCharges" (Value.vfloat f0)]
             | Option.none =>
                 Except.ok [dictSet r "TotalCharges" (Value.vfloat (PyFloat.finite 2279))]) := by
          unfold FillTotalCharges.process
          rw [hd]
          simp only [if_neg hcond, strReplace, except_bind_ok]
          rcases hp : pyFloatParse (pyReplaceChar s ' ' "2279.0") with _ | f0 <;> rfl
        refine ⟨(pyFloatParse (pyReplaceChar s ' ' "2279.0")).getD (PyFloat.finite 2279), ?_,
          fun hdis => by simp [hg, hs0] at hdis, fun s2 hs2 _ => ?_⟩
        · rw [hmatch]
          rcases hp : pyFloatParse (pyReplaceChar s ' ' "2279.0") with _ | f0 <;> rfl
        · injection hs2 with h1
          injection h1 with h2
          rw [h2]
    · rcases fl with q | _ | _ | _
      · simp [tcStringlike, hg] at h
      · have hd : dictGetD r FEATURE_TO_MODIFY (Value.vstr "2279.0") =
            Value.vfloat PyFloat.nan := by
          simp [dictGetD, FEATURE_TO_MODIFY, hg]
        refine ⟨PyFloat.finite 2279, ?_, fun _ => rfl, fun s2 hs2 _ => ?_⟩
        · unfold FillTotalCharges.process
          rw [hd]
          rfl
        · injection hs2 with h1
          injection h1
      · simp [tcStringlike, hg] at h
      · simp [tcStringlike, hg] at h
    · simp [tcStringlike, hg] at h
    · have hd : dictGetD r FEATURE_TO_MODIFY (Value.vstr "2279.0") = Value.vnone := by
        simp [dictGetD, FEATURE_TO_MODIFY, hg]
      refine ⟨PyFloat.finite 2279, ?_, fun _ => rfl, fun s2 hs2 _ => ?_⟩
      · unfold FillTotalCharges.process
        rw [hd]
        rfl
      · injection hs2 with h1
        injection h1

/-- C3 witness: the spec's quirky regression input "1 234". -/
theorem fill_total_charges_amended_witness :
    FillTotalCharges.process [("TotalCharges", Value.vstr "1 234")] =
      .ok [[("TotalCharges", Value.vfloat (PyFloat.finite (mkRat 122790234 10000)))]] := by
  obtain ⟨f, hf, -, hs⟩ :=
    fill_total_charges_amended [("TotalCharges", Value.vstr "1 234")] (by decide)
  have hfv : f = (pyFloatParse (pyReplaceChar "1 234" ' ' "2279.0")).getD (PyFloat.finite 2279) :=
    hs "1 234" rfl (by decide)
  rw [hf, hfv]
  rfl

/-- C4: the tenure imputer writes the precomputed reference mean (as a
float) when tenure is absent, None, or NaN, writes exactly 0.0 when
tenure is the empty string, and otherwise applies the float coercion of
the stored value; whenever the reference mean is not 0.0 the missing
case and the empty-string case produce different output records. -/
theorem fill_tenure_policy (μ : PyFloat) (r : Record) :
    ((dictGet r "tenure" = Option.none ∨ dictGet r "tenure" = some Value.vnone ∨
      dictGet r "tenure" = some (Value.vfloat PyFloat.nan)) →
      FillTenureWithMean.process μ r = .ok [dictSet r "tenure" (Value.vfloat μ)]) ∧
    (dictGet r "tenure" = some (Value.vstr "") →
      FillTenureWithMean.process μ r =
        .ok [dictSet r "tenure" (Value.vfloat (PyFloat.finite 0))]) ∧
    (∀ v, dictGet r "tenure" = some v → v ≠ Value.vnone → v ≠ Value.vfloat PyFloat.nan →
      v ≠ Value.vstr "" →
      FillTenureWithMean.process μ r =
        (pyFloatOfValue v) >>= (fun f => .ok [dictSet r "tenure" (Value.vfloat f)])) ∧
    (μ ≠ PyFloat.finite 0 →
      dictSet r "tenure" (Value.vfloat μ) ≠ dictSet r "tenure" (Value.vfloat (PyFloat.finite 0))) := by
  refine ⟨?_, ?_, ?_, ?_⟩
  · intro hdis
    have hd : dictGetD r "tenure" Value.vnone = Value.vnone ∨
        dictGetD r "tenure" Value.vnone = Value.vfloat PyFloat.nan := by
      rcases hdis with h1 | h1 | h1 <;> simp [dictGetD, h1]
    rcases hd with hd | hd <;>
    · unfold FillTenureWithMean.process
      rw [hd]
      rfl
  · intro h1
    have hd : dictGetD r "tenure" Value.vnone = Value.vstr "" := by simp [dictGetD, h1]
    unfold FillTenureWithMean.process
    rw [hd]
    rfl
  · intro v hv h1 h2 h3
    have hd : dictGetD r "tenure" Value.vnone = v := by simp [dictGetD, hv]
    have hc1 : ¬(v = Value.vnone ∨ isFloatNan v = true) := by
      simp [h1, h2, isFloatNan_eq_true]
    have hc2 : ¬(v = Value.vstr "") := h3
    unfold FillTenureWithMean.process
    rw [hd]
    simp only [if_neg hc1, if_neg hc2]
  · intro hμ heq
    have h2 := congrArg (fun rr => dictGet rr "tenure") heq
    simp only [dictGet_set_self] at h2
    injection h2 with h3
    injection h3 with h4
    exact hμ h4

/-- C4 witness: mean 32, a None tenure, an empty-string tenure, and the
distinctness of the two outputs. -/
theorem fill_tenure_policy_witness :
    FillTenureWithMean.process (PyFloat.finite 32) [("tenure", Value.vnone)] =
      .ok [[("tenure", Value.vfloat (PyFloat.finite 32))]] ∧
    FillTenureWithMean.process (PyFloat.finite 32) [("tenure", Value.vstr "")] =
      .ok [[("tenure", Value.vfloat (PyFloat.finite 0))]] ∧
    ([("tenure", Value.vfloat (PyFloat.finite 32))] : Record) ≠
      [("tenure", Value.vfloat (PyFloat.finite 0))] := by
  have h1 := fill_tenure_policy (PyFloat.finite 32) [("tenure", Value.vnone)]
  have h2 := fill_tenure_policy (PyFloat.finite 32) [("tenure", Value.vstr "")]
  exact ⟨h1.1 (Or.inr (Or.inl rfl)), h2.2.1 rfl, h1.2.2.2 (by decide)⟩

/-- C5: a non-empty tenure string that does not parse as a float makes
the tenure imputer raise a ValueError which nothing catches: the whole
remaining chain (and hence the batch run) yields the same error. -/
theorem fill_tenure_bad_string_aborts (μ : PyFloat) (r : Record) (s : String)
    (hs : dictGet r "tenure" = some (Value.vstr s)) (hne : s ≠ "")
    (hbad : pyFloatParse s = Option.none) :
    FillTenureWithMean.process μ r =
      .error (.valueError ("could not convert string to float: \x27" ++ s ++ "\x27")) ∧
    ∀ rest, chainFromTenure μ (r :: rest) =
      .error (.valueError ("could not convert string to float: \x27" ++ s ++ "\x27")) := by
  have hd : dictGetD r "tenure" Value.vnone = Value.vstr s := by simp [dictGetD, hs]
  have hc1 : ¬(Value.vstr s = Value.vnone ∨ isFloatNan (Value.vstr s) = true) := by
    simp [isFloatNan]
  have hc2 : ¬(Value.vstr s = Value.vstr "") := by simp [hne]
  have hp : FillTenureWithMean.process μ r =
      .error (.valueError ("could not convert string to float: \x27" ++ s ++ "\x27")) := by
    unfold FillTenureWithMean.process
    rw [hd]
    simp only [if_neg hc1, if_neg hc2, pyFloatOfValue, hbad, except_bind_error]
  refine ⟨hp, fun rest => ?_⟩
  unfold chainFromTenure
  rw [parDo_cons, hp]
  simp [Except.bind, except_bind_error]

/-- C5 witness: tenure "abc" with mean 32. -/
theorem fill_tenure_bad_string_aborts_witness :
    FillTenureWithMean.process (PyFloat.finite 32) [("tenure", Value.vstr "abc")] =
      .error (.valueError "could not convert string to float: \x27abc\x27") ∧
    chainFromTenure (PyFloat.finite 32) [[("tenure", Value.vstr "abc")]] =
      .error (.valueError "could not convert string to float: \x27abc\x27") := by
  have h := fill_tenure_bad_string_aborts (PyFloat.finite 32)
    [("tenure", Value.vstr "abc")] "abc" rfl (by decide) rfl
  exact ⟨h.1, h.2 []⟩

/-- C6 counterexample: the feature filter is the dict comprehension
`{key: element[key] for key in allow-list}`, and the subscript read
raises KeyError on the first absent allow-list key instead of omitting
it — here the empty record. -/
theorem filter_features_raises_on_absent :
    filter_features [] = .error (.keyError "Contract") := rfl

/-- C6 (amended): when every allow-list key is present the feature
filter returns a new record containing exactly the allow-list keys with
the input's values; when some allow-list key is absent it raises an
uncaught KeyError naming an allow-list key instead of omitting it. -/
theorem filter_features_amended (r : Record) :
    (∀ v1 v2 v3 v4,
      dictGet r "Contract" = some v1 → dictGet r "TotalCharges" = some v2 →
      dictGet r "PhoneService" = some v3 → dictGet r "tenure" = some v4 →
      filter_features r =
        .ok [("Contract", v1), ("TotalCharges", v2), ("PhoneService", v3), ("tenure", v4)]) ∧
    ((dictGet r "Contract").isNone ∨ (dictGet r "TotalCharges").isNone ∨
      (dictGet r "PhoneService").isNone ∨ (dictGet r "tenure").isNone →
      ∃ k, k ∈ FEATURES_AFTER_CONTRACT ∧ filter_features r = .error (.keyError k)) := by
  constructor
  · intro v1 v2 v3 v4 h1 h2 h3 h4
    simp [filter_features, FEATURES_AFTER_CONTRACT, List.foldlM, h1, h2, h3, h4,
      except_bind_ok, dictSet]
  · intro hdis
    rcases h1 : dictGet r "Contract" with _ | v1
    · exact ⟨"Contract", by decide,
        by simp [filter_features, FEATURES_AFTER_CONTRACT, List.foldlM, h1, except_bind_error]⟩
    · rcases h2 : dictGet r "TotalCharges" with _ | v2
      · exact ⟨"TotalCharges", by decide,
          by simp [filter_features, FEATURES_AFTER_CONTRACT, List.foldlM, h1, h2,
            except_bind_ok, except_bind_error]⟩
      · rcases h3 : dictGet r "PhoneService" with _ | v3
        · exact ⟨"PhoneService", by decide,
            by simp [filter_features, FEATURES_AFTER_CONTRACT, List.foldlM, h1, h2, h3,
              except_bind_ok, except_bind_error]⟩
        · rcases h4 : dictGet r "tenure" with _ | v4
          · exact ⟨"tenure", by decide,
              by simp [filter_features, FEATURES_AFTER_CONTRACT, List.foldlM, h1, h2, h3, h4,
                except_bind_ok, except_bind_error]⟩
          · simp [h1, h2, h3, h4] at hdis
/-- C6 witness: a full record keeps exactly the allow-list keys. -/
theorem filter_features_amended_witness :
    filter_features [("customerID", Value.vstr "c1"), ("Contract", Value.vstr "One year"),
      ("TotalCharges", Value.vstr "10.5"), ("PhoneService", Value.vstr "Yes"),
      ("tenure", Value.vstr "5")] =
      .ok [("Contract", Value.vstr "One year"), ("TotalCharges", Value.vstr "10.5"),
        ("PhoneService", Value.vstr "Yes"), ("tenure", Value.vstr "5")] :=
  (filter_features_amended _).1 _ _ _ _ rfl rfl rfl rfl

/-- C7: on a record with a null Contract, the null guard raises — but
not the intended ValueError: `pd.isna` on a scalar returns a builtin
bool and the `.any()` call on it raises AttributeError first, making the
raise statement unreachable (and `run_pipeline` never includes
`HandleContract` in its chain at all). -/
theorem handle_contract_null_guard_attribute_error :
    HandleContract.process [("Contract", Value.vnone)] =
      .error (.attributeError "\x27bool\x27 object has no attribute \x27any\x27") := rfl

/-- C8: a missing, None, or NaN PhoneService is imputed to the string
"No", and the encoder maps a string PhoneService case-insensitively to
1 exactly when it lowercases to "yes" and to 0 otherwise; in
composition a record entering with PhoneService missing leaves the
encoder with PhoneService equal to 0. -/
theorem phone_service_impute_then_map (r : Record) :
    ((dictGet r "PhoneService" = Option.none ∨ dictGet r "PhoneService" = some Value.vnone ∨
      dictGet r "PhoneService" = some (Value.vfloat PyFloat.nan)) →
      FillPhoneService.process r = .ok [dictSet r "PhoneService" (Value.vstr "No")] ∧
      MapPhoneService.process (dictSet r "PhoneService" (Value.vstr "No")) =
        .ok [dictSet (dictSet r "PhoneService" (Value.vstr "No")) "PhoneService"
          (Value.vint 0)] ∧
      dictGet (dictSet (dictSet r "PhoneService" (Value.vstr "No")) "PhoneService"
        (Value.vint 0)) "PhoneService" = some (Value.vint 0)) ∧
    (∀ s, dictGet r "PhoneService" = some (Value.vstr s) →
      MapPhoneService.process r =
        .ok [dictSet r "PhoneService" (Value.vint (if pyLower s = "yes" then 1 else 0))]) := by
  constructor
  · intro hdis
    have hd : dictGetD r "PhoneService" Value.vnone = Value.vnone ∨
        dictGetD r "PhoneService" Value.vnone = Value.vfloat PyFloat.nan := by
      rcases hdis with h1 | h1 | h1 <;> simp [dictGetD, h1]
    have hfill : FillPhoneService.process r = .ok [dictSet r "PhoneService" (Value.vstr "No")] := by
      rcases hd with hd | hd <;>
      · unfold FillPhoneService.process
        rw [hd]
        rfl
    have hget : dictGet (dictSet r "PhoneService" (Value.vstr "No")) "PhoneService" =
        some (Value.vstr "No") := dictGet_set_self r "PhoneService" (Value.vstr "No")
    have hmap : MapPhoneService.process (dictSet r "PhoneService" (Value.vstr "No")) =
        .ok [dictSet (dictSet r "PhoneService" (Value.vstr "No")) "PhoneService"
          (Value.vint 0)] := by
      unfold MapPhoneService.process
      rw [hget]
      rfl
    exact ⟨hfill, hmap, dictGet_set_self _ _ _⟩
  · intro s hs
    unfold MapPhoneService.process
    rw [hs]
    rfl

/-- C8 witness: a record with no PhoneService key. -/
theorem phone_service_impute_then_map_witness :
    FillPhoneService.process [] = .ok [[("PhoneService", Value.vstr "No")]] ∧
    MapPhoneService.process [("PhoneService", Value.vstr "No")] =
      .ok [[("PhoneService", Value.vint 0)]] := by
  have h := (phone_service_impute_then_map []).1 (Or.inl rfl)
  exact ⟨h.1, h.2.1⟩

/-- C9: an input whose lines after the first are all blank (or which is
empty) makes run_pipeline return False without running the transform
chain and without writing an output file. -/
theorem run_pipeline_empty_input (μ : PyFloat) (lines : List String)
    (h : ∀ l ∈ lines.drop 1, pyStrip l = "") :
    run_pipeline μ lines = .ok (false, Option.none) := by
  have he : is_csv_empty lines = true := by
    simp only [is_csv_empty, List.all_eq_true, decide_eq_true_eq]
    exact h
  simp [run_pipeline, he]

/-- C9 witness: a file holding only a header line. -/
theorem run_pipeline_empty_input_witness :
    run_pipeline (PyFloat.finite 32) ["header"] = .ok (false, Option.none) :=
  run_pipeline_empty_input (PyFloat.finite 32) ["header"] (by simp)

/-- C10: a non-empty input whose header does not contain the configured
leading column among its comma-separated columns makes run_pipeline
raise an uncaught ValueError before any data row is processed, so no
boolean is returned. -/
theorem run_pipeline_missing_leading_column (μ : PyFloat) (lines : List String)
    (hdata : ∃ l ∈ lines.drop 1, pyStrip l ≠ "")
    (hhdr : LEADING_COLUMN ∉ pySplitComma (pyStrip (lines.headD ""))) :
    run_pipeline μ lines =
      .error (.valueError "\x27customerID\x27 column not found in the header.") := by
  have he : is_csv_empty lines = false := by
    rcases hdata with ⟨l, hl, hne⟩
    simp only [is_csv_empty, List.all_eq_false]
    exact ⟨l, hl, by simpa using hne⟩
  have hf : find_leading_column_index (pyStrip (lines.headD "")) =
      .error (.valueError "\x27customerID\x27 column not found in the header.") := by
    unfold find_leading_column_index
    simp only [if_neg hhdr]
    rfl
  have he2 : ¬ (is_csv_empty lines = true) := by simp [he]
  unfold run_pipeline
  simp only [if_neg he2]
  rw [hf]
  rfl

/-- C10 witness: a two-line file whose header lacks the leading column. -/
theorem run_pipeline_missing_leading_column_witness :
    run_pipeline (PyFloat.finite 32) ["foo,bar", "x"] =
      .error (.valueError "\x27customerID\x27 column not found in the header.") :=
  run_pipeline_missing_leading_column (PyFloat.finite 32) ["foo,bar", "x"]
    ⟨"x", by simp, by decide⟩ (by decide)
